import Mathlib

-- Verification of the adaptive compression engine in src/arch/builder.py
-- (class AdvancedCompressionEngine).  Byte payloads are modelled as
-- List Nat (each byte < 256), encoded artifacts as List Char, and Python
-- floats as exact rationals.  External backend compressors (gzip, zlib,
-- brotli, lz4, zstandard - all imported libraries, not repository code)
-- are modelled as opaque parameters in a Backends structure, with
-- Option capturing a raised exception.  Code of the repository itself
-- (the Z85 and Base91 codecs, framing, selection, hybrid benchmarking,
-- statistics) is embedded directly.

-- ===== generic helpers =====

/-- First occurrence split: returns the part before the first `sep` and
the remainder after it, or `none` when `sep` does not occur. -/
def splitFirst (sep : Char) : List Char → Option (List Char × List Char)
  | [] => none
  | c :: rest =>
    if c = sep then some ([], rest)
    else (splitFirst sep rest).map (fun p => (c :: p.1, p.2))

/-- Python `s.split(":", 2)`: at most two splits, so the result has one,
two or three parts. -/
def split2Colon (s : List Char) : List (List Char) :=
  match splitFirst ':' s with
  | none => [s]
  | some (a, r) =>
    match splitFirst ':' r with
    | none => [a, r]
    | some (b, r2) => [a, b, r2]

/-- Fuel-driven worker for `pySplit` (fuel bounds the number of splits;
`s.length` is always enough). -/
def pySplitAux : Nat → Char → List Char → List (List Char)
  | 0, _, s => [s]
  | fuel + 1, sep, s =>
    match splitFirst sep s with
    | none => [s]
    | some (a, r) => a :: pySplitAux fuel sep r

/-- Python `s.split(sep)` with no maxsplit: always at least one part;
`"".split(sep)` is `[""]`. -/
def pySplit (sep : Char) (s : List Char) : List (List Char) :=
  pySplitAux s.length sep s

/-- Python `int(s)` restricted to plain decimal digit strings; any other
string raises ValueError, modelled as `none`.  (Python also accepts
whitespace and a sign, which the engine never produces and no claim
exercises.) -/
def parseNat (s : List Char) : Option Nat :=
  if s ≠ [] ∧ s.all (fun c => c.isDigit) then
    some (s.foldl (fun a c => a * 10 + (c.toNat - 48)) 0)
  else none

/-- Python `f"{n}"` for a non-negative integer: decimal digits. -/
def natRepr (n : Nat) : List Char :=
  Nat.toDigits 10 n

/-- Apply an Option-valued function to every element; `none` if any
application fails (models a loop whose body can raise). -/
def optionMapAll (f : α → Option β) : List α → Option (List β)
  | [] => some []
  | x :: xs =>
    match f x, optionMapAll f xs with
    | some y, some ys => some (y :: ys)
    | _, _ => none

/-- Fuel-driven worker for `chunksOf`; fuel `l.length` always suffices
for a positive chunk size. -/
def chunksOfAux : Nat → Nat → List α → List (List α)
  | _, _, [] => []
  | 0, _, l => [l]
  | fuel + 1, n, l => l.take n :: chunksOfAux fuel n (l.drop n)

/-- Split a list into consecutive chunks of size `n` (last one may be
shorter); models `for i in range(0, len(data), chunk_size)` slicing. -/
def chunksOf (n : Nat) (l : List α) : List (List α) :=
  chunksOfAux l.length n l

/-- Python `len(s.encode("utf-8"))`: the UTF-8 byte length of a string
(all engine outputs are ASCII, where this equals the character count). -/
def utf8Length (l : List Char) : Nat :=
  (l.map Char.utf8Size).sum

-- ===== standard Base64 (Python base64.b64encode / b64decode) =====

/-- The 64-symbol standard Base64 alphabet. -/
def b64Alphabet : List Char :=
  "ABCDEFGHIJKLMNOPQRSTUVWXYZabcdefghijklmnopqrstuvwxyz0123456789+/".toList

/-- Symbol for a 6-bit value. -/
def b64Char (n : Nat) : Char :=
  b64Alphabet.getD n ' '

/-- `base64.b64encode(data).decode("ascii")`: 3 bytes to 4 symbols with
`=` padding. -/
def b64Encode : List Nat → List Char
  | [] => []
  | [b1] => [b64Char (b1 / 4), b64Char (b1 % 4 * 16), '=', '=']
  | [b1, b2] => [b64Char (b1 / 4), b64Char (b1 % 4 * 16 + b2 / 16), b64Char (b2 % 16 * 4), '=']
  | b1 :: b2 :: b3 :: rest =>
    b64Char (b1 / 4) :: b64Char (b1 % 4 * 16 + b2 / 16) ::
      b64Char (b2 % 16 * 4 + b3 / 64) :: b64Char (b3 % 64) :: b64Encode rest

/-- Index of a Base64 symbol. -/
def b64Val (c : Char) : Option Nat :=
  b64Alphabet.findIdx? (fun a => a == c)

/-- Worker for `b64Decode` on the `=`-stripped symbol stream. -/
def b64DecodeCore : List Char → Option (List Nat)
  | [] => some []
  | [c1, c2] =>
    match b64Val c1, b64Val c2 with
    | some d1, some d2 => some [d1 * 4 + d2 / 16]
    | _, _ => none
  | [c1, c2, c3] =>
    match b64Val c1, b64Val c2, b64Val c3 with
    | some d1, some d2, some d3 => some [d1 * 4 + d2 / 16, d2 % 16 * 16 + d3 / 4]
    | _, _, _ => none
  | c1 :: c2 :: c3 :: c4 :: rest =>
    match b64Val c1, b64Val c2, b64Val c3, b64Val c4, b64DecodeCore rest with
    | some d1, some d2, some d3, some d4, some tail =>
      some ((d1 * 4 + d2 / 16) :: (d2 % 16 * 16 + d3 / 4) :: (d3 % 4 * 64 + d4) :: tail)
    | _, _, _, _, _ => none
  | _ => none

/-- `base64.b64decode(s)`: drop trailing `=` padding, decode 6-bit
symbols; invalid input raises (modelled as `none`). -/
def b64Decode (s : List Char) : Option (List Nat) :=
  b64DecodeCore ((s.reverse.dropWhile (fun c => c = '=')).reverse)

-- ===== Z85 codec (_encode_z85 / _decode_z85) =====

/-- The 85-symbol alphabet of `_encode_z85` (braces written as
hex escapes). -/
def z85Alphabet : List Char :=
  "0123456789abcdefghijklmnopqrstuvwxyzABCDEFGHIJKLMNOPQRSTUVWXYZ.-:+=^!/*?&<>()[]\x7b\x7d@%$#".toList

/-- `alphabet[d]` for a base-85 digit (every use has `d < 85`, so the
default is never produced). -/
def z85Digit (d : Nat) : Char :=
  z85Alphabet.getD d ' '

/-- `char_map[char]`: index of a symbol in the Z85 alphabet; a symbol
outside the alphabet raises KeyError, modelled as `none`. -/
def z85Index (c : Char) : Option Nat :=
  z85Alphabet.findIdx? (fun a => a == c)

/-- `int.from_bytes(chunk, byteorder="big")` for a 4-byte group. -/
def z85FromBytes4 (b1 b2 b3 b4 : Nat) : Nat :=
  ((b1 * 256 + b2) * 256 + b3) * 256 + b4

/-- `value.to_bytes(4, byteorder="big")` (callers check `value < 2^32`,
mirroring the OverflowError) — big-endian byte components. -/
def z85ToBytes4 (v : Nat) : List Nat :=
  [v / 16777216 % 256, v / 65536 % 256, v / 256 % 256, v % 256]

/-- The 5-iteration digit loop of `_encode_z85` unrolled: the loop
prepends `alphabet[value % 85]` and divides `value` by 85 five times,
producing the base-85 digits most significant first. -/
def z85Digits5 (v : Nat) : List Char :=
  [z85Digit (v / 52200625 % 85), z85Digit (v / 614125 % 85),
   z85Digit (v / 7225 % 85), z85Digit (v / 85 % 85), z85Digit (v % 85)]

/-- The encoding loop of `_encode_z85` over 4-byte groups (the input is
always padded to a multiple of 4 bytes first, so the catch-all is only
reached at the empty list). -/
def z85EncGroups : List Nat → List Char
  | b1 :: b2 :: b3 :: b4 :: rest =>
    z85Digits5 (z85FromBytes4 b1 b2 b3 b4) ++ z85EncGroups rest
  | _ => []

/-- `_encode_z85`: pad with zero bytes to a multiple of 4, encode each
group as 5 digits, and frame as `"Z85:<padding>:<digits>"`. -/
def encodeZ85 (data : List Nat) : List Char :=
  "Z85:".toList ++ natRepr ((4 - data.length % 4) % 4) ++
    ':' :: z85EncGroups (data ++ List.replicate ((4 - data.length % 4) % 4) 0)

/-- The decoding loop of `_decode_z85`: process 5-character groups,
`value = value*85 + char_map[char]`, convert to 4 big-endian bytes; a
trailing group shorter than 5 characters is silently dropped (`break`),
an unknown symbol raises KeyError (`none`), and a group value of 2^32
or more raises OverflowError in `to_bytes` (`none`). -/
def z85DecodeGroups : List Char → Option (List Nat)
  | c1 :: c2 :: c3 :: c4 :: c5 :: rest =>
    match z85Index c1, z85Index c2, z85Index c3, z85Index c4, z85Index c5 with
    | some d1, some d2, some d3, some d4, some d5 =>
      if (((d1 * 85 + d2) * 85 + d3) * 85 + d4) * 85 + d5 < 4294967296 then
        match z85DecodeGroups rest with
        | some tail =>
          some (z85ToBytes4 ((((d1 * 85 + d2) * 85 + d3) * 85 + d4) * 85 + d5) ++ tail)
        | none => none
      else none
    | _, _, _, _, _ => none
  | _ => some []

/-- `_decode_z85`: check the `"Z85:"` tag, split off the two-part
prefix, parse the padding count, decode the digit groups, then remove
`padding` trailing bytes (Python `decoded[:-padding]` for positive
padding). -/
def decodeZ85 (s : List Char) : Option (List Nat) :=
  if "Z85:".toList.isPrefixOf s then
    match split2Colon s with
    | [_, padStr, enc] =>
      match parseNat padStr with
      | some padding =>
        match z85DecodeGroups enc with
        | some decoded =>
          some (if 0 < padding then decoded.take (decoded.length - padding) else decoded)
        | none => none
      | none => none
    | _ => none
  else none

-- ===== Base91 codec (_encode_base91 / _decode_base91) =====

/-- The 91-symbol alphabet of `_encode_base91` (braces written as hex
escapes; the final symbol is a double quote). -/
def b91Alphabet : List Char :=
  "ABCDEFGHIJKLMNOPQRSTUVWXYZabcdefghijklmnopqrstuvwxyz0123456789!#$%&()*+,./:;<=>?@[]^_`\x7b|\x7d~\"".toList

/-- The bit-accumulator loop of `_encode_base91`, yielding the emitted
13-bit values: each byte is OR-ed in at offset `b`; while more than 13
bits are held the low 13 bits are emitted; leftover bits are flushed
once at the end. -/
def b91EncodeCore : List Nat → Nat → Nat → List Nat
  | [], v, b => if 0 < b then [v &&& 8191] else []
  | byte :: rest, v, b =>
    if b + 8 > 13 then
      ((v ||| ((byte &&& 255) <<< b)) &&& 8191) ::
        b91EncodeCore rest ((v ||| ((byte &&& 255) <<< b)) >>> 13) (b + 8 - 13)
    else
      b91EncodeCore rest (v ||| ((byte &&& 255) <<< b)) (b + 8)

/-- `alphabet[d]` for an emitted 13-bit value: the alphabet has only 91
symbols, so a value of 91 or more raises IndexError (`none`). -/
def b91Symbol (d : Nat) : Option Char :=
  b91Alphabet.get? d

/-- `_encode_base91`: map the emitted 13-bit values through the
91-symbol alphabet and frame as `"B91:<symbols>"`; `none` models the
IndexError raised when an emitted value exceeds 90. -/
def encodeB91 (data : List Nat) : Option (List Char) :=
  match optionMapAll b91Symbol (b91EncodeCore data 0 0) with
  | some syms => some ("B91:".toList ++ syms)
  | none => none

/-- The inner `while b >= 8` loop of `_decode_base91`: emit low bytes
while at least 8 bits are held.  Fuel-driven; fuel `b` always suffices. -/
def b91Drain : Nat → Nat → Nat → List Nat × Nat × Nat
  | 0, v, b => ([], v, b)
  | fuel + 1, v, b =>
    if 8 ≤ b then
      ((v &&& 255) :: (b91Drain fuel (v >>> 8) (b - 8)).1,
       (b91Drain fuel (v >>> 8) (b - 8)).2.1, (b91Drain fuel (v >>> 8) (b - 8)).2.2)
    else ([], v, b)

/-- The symbol loop of `_decode_base91`: a symbol outside the alphabet
is silently skipped; a known symbol contributes 13 bits, after which
complete bytes are drained. -/
def b91DecodeCore : List Char → Nat → Nat → List Nat
  | [], _, _ => []
  | c :: rest, v, b =>
    match b91Alphabet.findIdx? (fun a => a == c) with
    | none => b91DecodeCore rest v b
    | some d =>
      (b91Drain (b + 13) (v ||| (d <<< b)) (b + 13)).1 ++
        b91DecodeCore rest (b91Drain (b + 13) (v ||| (d <<< b)) (b + 13)).2.1
          (b91Drain (b + 13) (v ||| (d <<< b)) (b + 13)).2.2

/-- `_decode_base91`: check the `"B91:"` tag and run the symbol loop on
the remainder. -/
def decodeB91 (s : List Char) : Option (List Nat) :=
  if "B91:".toList.isPrefixOf s then some (b91DecodeCore (s.drop 4) 0 0)
  else none

-- ===== capability set and backend compressors =====

/-- The availability flags probed by `_detect_available_methods`
(gzip and zlib are always available; the three optional backends map to
`brotli_base64`, `LZ4_SUPPORT` and `ZSTD_SUPPORT`). -/
structure Caps where
  brotli : Bool
  lz4 : Bool
  zstd : Bool
deriving DecidableEq

/-- The pluggable backend compressors (Python libraries gzip, zlib,
brotli, lz4.frame, zstandard — external to the repository, treated as
black boxes).  Compressors with a tunable level take it as an argument;
`none` models a raised exception. -/
structure Backends where
  gzipCompress : List Nat → Nat → Option (List Nat)
  gzipDecompress : List Nat → Option (List Nat)
  zlibCompress : List Nat → Nat → Option (List Nat)
  zlibDecompress : List Nat → Option (List Nat)
  brotliCompress : List Nat → Nat → Option (List Nat)
  brotliDecompress : List Nat → Option (List Nat)
  lz4Compress : List Nat → Option (List Nat)
  lz4Decompress : List Nat → Option (List Nat)
  zstdCompress : List Nat → Nat → Option (List Nat)
  zstdDecompress : List Nat → Option (List Nat)

-- ===== backend-pipeline codecs (compress-then-base64) =====

/-- `_gzip_then_base64`. -/
def gzipThenBase64 (bk : Backends) (data : List Nat) (level : Nat) : Option (List Char) :=
  (bk.gzipCompress data level).map b64Encode

/-- `_deflate_then_base64` (zlib). -/
def deflateThenBase64 (bk : Backends) (data : List Nat) (level : Nat) : Option (List Char) :=
  (bk.zlibCompress data level).map b64Encode

/-- `_brotli_then_base64`: falls back to gzip when brotli is
unavailable. -/
def brotliThenBase64 (bk : Backends) (caps : Caps) (data : List Nat) (level : Nat) :
    Option (List Char) :=
  if !caps.brotli then gzipThenBase64 bk data level
  else (bk.brotliCompress data level).map b64Encode

/-- `_lz4_then_base64`: falls back to fast gzip (level 1) when LZ4 is
unavailable. -/
def lz4ThenBase64 (bk : Backends) (caps : Caps) (data : List Nat) : Option (List Char) :=
  if !caps.lz4 then gzipThenBase64 bk data 1
  else (bk.lz4Compress data).map b64Encode

/-- `_zstd_then_base64`: falls back to brotli (which itself can fall
back to gzip) when zstandard is unavailable. -/
def zstdThenBase64 (bk : Backends) (caps : Caps) (data : List Nat) (level : Nat) :
    Option (List Char) :=
  if !caps.zstd then brotliThenBase64 bk caps data level
  else (bk.zstdCompress data level).map b64Encode

-- ===== streaming codec (_streaming_gzip_base64 / _streaming_gunzip_base64) =====

/-- `_streaming_gzip_base64`: split into 64 KiB chunks, gzip (level 6)
and Base64-encode each chunk, and frame as
`"STREAM:<count>:" + "|".join(chunks)`. -/
def streamingGzipBase64 (bk : Backends) (data : List Nat) : Option (List Char) :=
  match optionMapAll (fun ch => (bk.gzipCompress ch 6).map b64Encode)
      (chunksOf 65536 data) with
  | some encodedChunks =>
    some ("STREAM:".toList ++ natRepr encodedChunks.length ++
      ':' :: List.intercalate ['|'] encodedChunks)
  | none => none

/-- The per-chunk loop of `_streaming_gunzip_base64`: Base64-decode then
gzip-decompress each chunk, concatenating in order. -/
def decodeChunksGzip (bk : Backends) : List (List Char) → Option (List Nat)
  | [] => some []
  | ch :: rest =>
    match b64Decode ch with
    | some comp =>
      match bk.gzipDecompress comp with
      | some raw =>
        match decodeChunksGzip bk rest with
        | some tail => some (raw ++ tail)
        | none => none
      | none => none
    | none => none

/-- `_streaming_gunzip_base64`: check the `"STREAM:"` tag, split off the
two-part prefix, parse the chunk count, split the remainder on `"|"`,
raise on a count mismatch, and decode the chunks. -/
def streamingGunzip (bk : Backends) (s : List Char) : Option (List Nat) :=
  if "STREAM:".toList.isPrefixOf s then
    match split2Colon s with
    | [_, cntStr, chunksStr] =>
      match parseNat cntStr with
      | some cnt =>
        if (pySplit '|' chunksStr).length = cnt then
          decodeChunksGzip bk (pySplit '|' chunksStr)
        else none
      | none => none
    | _ => none
  else none

-- ===== method selector (determine_optimal_method) =====

/-- `determine_optimal_method`: ordered first-match rules over the
payload size, the file-type hint and the capability flags. -/
def determineOptimalMethod (caps : Caps) (data : List Nat) (fileType : String) : String :=
  if data.length > 10 * 1024 * 1024 then "streaming_gzip"
  else if (fileType = "image" ∨ fileType = "video" ∨ fileType = "audio") ∧
      data.length > 100 * 1024 then "z85"
  else if fileType = "pdf" ∨ fileType = "text" ∨ fileType = "json" ∨ fileType = "xml" then
    if caps.zstd ∧ data.length > 1024 * 1024 then "zstd_base64"
    else if caps.brotli then "brotli_base64"
    else "gzip_base64"
  else if data.length < 100 * 1024 then
    if caps.lz4 then "lz4_base64" else "z85"
  else if data.length < 1024 * 1024 then "gzip_base64"
  else "hybrid"

-- ===== hybrid benchmarker (_hybrid_compress) =====

/-- One benchmark candidate of `_hybrid_compress`: the tuple
`(method, result, size, score)` appended for every method that
succeeds. -/
structure HCand where
  name : String
  result : List Char
  size : Nat
  score : ℚ
deriving DecidableEq

/-- The candidate enumeration order of `_hybrid_compress`: gzip and
deflate always, then brotli when available, then LZ4 for payloads under
1 MiB when available, then Z85 for payloads under 100 KiB. -/
def hybridMethods (caps : Caps) (n : Nat) : List String :=
  ["gzip_base64", "deflate_base64"] ++
    (if caps.brotli then ["brotli_base64"] else []) ++
    (if caps.lz4 ∧ n < 1024 * 1024 then ["lz4_base64"] else []) ++
    (if n < 100 * 1024 then ["z85"] else [])

/-- The per-candidate encode step of `_hybrid_compress` (level 6 for the
tunable backends); `none` models a candidate that throws and is
dropped. -/
def hybridTry (bk : Backends) (caps : Caps) (data : List Nat) (m : String) :
    Option (List Char) :=
  if m = "gzip_base64" then gzipThenBase64 bk data 6
  else if m = "deflate_base64" then deflateThenBase64 bk data 6
  else if m = "brotli_base64" then brotliThenBase64 bk caps data 6
  else if m = "lz4_base64" then lz4ThenBase64 bk caps data
  else if m = "z85" then some (encodeZ85 data)
  else none

/-- Score and record one successful candidate:
`score = 1 / (size*0.8 + time_s*1000*0.2)` where `size` is the UTF-8
length of the result and the elapsed time is in seconds; a zero
denominator raises ZeroDivisionError inside the per-candidate try block,
dropping the candidate. -/
def mkCandidate (m : String) (r : List Char) (t : ℚ) : Option HCand :=
  if (utf8Length r : ℚ) * (4 / 5) + t * 1000 * (1 / 5) = 0 then none
  else some ⟨m, r, utf8Length r, 1 / ((utf8Length r : ℚ) * (4 / 5) + t * 1000 * (1 / 5))⟩

/-- The measured candidate list of `_hybrid_compress`; `tel` gives the
wall-clock seconds measured for each candidate (an input of the model:
the code reads `time.time()`). -/
def hybridCandidates (bk : Backends) (caps : Caps) (data : List Nat) (tel : String → ℚ) :
    List HCand :=
  (hybridMethods caps data.length).filterMap
    (fun m => (hybridTry bk caps data m).bind (fun r => mkCandidate m r (tel m)))

/-- Python `max(candidates, key=lambda x: x[3])`: fold keeping the
current element unless a later one scores strictly higher, so the first
of equally-scored candidates wins. -/
def pyMax (f : α → ℚ) (x : α) (xs : List α) : α :=
  xs.foldl (fun best y => if f best < f y then y else best) x

/-- `_hybrid_compress`: benchmark the candidates, pick the highest
score, and frame the winner as `"HYBRID:<name>:<result>"`; when every
candidate fails, fall back to plain Base64 (with no prefix). -/
def hybridCompress (bk : Backends) (caps : Caps) (data : List Nat) (tel : String → ℚ) :
    List Char :=
  match hybridCandidates bk caps data tel with
  | [] => b64Encode data
  | c :: cs =>
    "HYBRID:".toList ++ (pyMax HCand.score c cs).name.toList ++
      ':' :: (pyMax HCand.score c cs).result

-- ===== statistics accumulator =====

/-- The `compression_stats` dictionary of the engine. -/
structure Stats where
  filesProcessed : Nat
  totalOriginalSize : Nat
  totalCompressedSize : Nat
  totalProcessingTime : ℚ
  methodUsage : List (String × Nat)

/-- The zeroed statistics created in `__init__`. -/
def initStats : Stats :=
  ⟨0, 0, 0, 0, []⟩

/-- `method_usage` lookup with default 0. -/
def usageCount : List (String × Nat) → String → Nat
  | [], _ => 0
  | (k, v) :: rest, m => if k = m then v else usageCount rest m

/-- Insert-or-increment of `method_usage[method]`. -/
def bumpUsage : List (String × Nat) → String → List (String × Nat)
  | [], m => [(m, 1)]
  | (k, v) :: rest, m =>
    if k = m then (k, v + 1) :: rest else (k, v) :: bumpUsage rest m

/-- `_update_stats`: add this call's deltas to every running total and
bump the per-method usage count. -/
def updateStats (s : Stats) (method : String) (originalSize compressedSize : Nat)
    (t : ℚ) : Stats :=
  ⟨s.filesProcessed + 1, s.totalOriginalSize + originalSize,
   s.totalCompressedSize + compressedSize, s.totalProcessingTime + t,
   bumpUsage s.methodUsage method⟩

-- ===== compress_data / decompress_data =====

/-- The `CompressionMetadata` record built by `compress_data`
(floats as exact rationals; `base64_size = int(original_size * 1.33)`
is modelled as `133 * n / 100`, exact rather than IEEE-rounded — no
claim depends on its value). -/
structure CompressionMetadata where
  method : String
  originalSize : Nat
  compressedSize : Nat
  compressionRatioQ : ℚ
  efficiency : ℚ
  spaceSaved : Int
  processingTimeMs : ℚ
  base64Improvement : ℚ
  compressionLevel : Option Nat

/-- `method.endswith("_base64")`. -/
def hasBase64Suffix (m : String) : Bool :=
  "_base64".toList.isSuffixOf m.toList

/-- The method-resolution step at the top of `compress_data`: `"auto"`
delegates to `determine_optimal_method(data)` — with no file-type
argument, so the hint keeps its default value `"unknown"`. -/
def resolveMethod (caps : Caps) (data : List Nat) (method : String) : String :=
  if method = "auto" then determineOptimalMethod caps data "unknown" else method

/-- The method dispatch inside the try block of `compress_data`: run the
chosen codec and report the method that will be recorded on success (an
unknown method silently falls back to gzip and records
`"gzip_base64"`). -/
def tryCompress (bk : Backends) (caps : Caps) (data : List Nat) (method : String)
    (level : Nat) (tel : String → ℚ) : Option (List Char) × String :=
  if method = "gzip_base64" then (gzipThenBase64 bk data level, method)
  else if method = "deflate_base64" then (deflateThenBase64 bk data level, method)
  else if method = "brotli_base64" then (brotliThenBase64 bk caps data level, method)
  else if method = "lz4_base64" then (lz4ThenBase64 bk caps data, method)
  else if method = "zstd_base64" then (zstdThenBase64 bk caps data level, method)
  else if method = "z85" then (some (encodeZ85 data), method)
  else if method = "base91" then (encodeB91 data, method)
  else if method = "streaming_gzip" then (streamingGzipBase64 bk data, method)
  else if method = "hybrid" then (some (hybridCompress bk caps data tel), method)
  else (gzipThenBase64 bk data level, "gzip_base64")

/-- The except-branch of `compress_data`: any raised codec failure is
caught, the payload is Base64-encoded directly, and the recorded method
becomes `"base64_only"`. -/
def fallbackResult (data : List Nat) (r : Option (List Char) × String) :
    List Char × String :=
  match r.1 with
  | some s => (s, r.2)
  | none => (b64Encode data, "base64_only")

/-- The metadata record assembled by `compress_data` for a payload of
positive length `n` and an output of UTF-8 length `cs`. -/
def mkMeta (method : String) (n cs : Nat) (elapsedMs : ℚ) (level : Nat) :
    CompressionMetadata :=
  ⟨method, n, cs, 1 - (cs : ℚ) / (n : ℚ), (cs : ℚ) / (n : ℚ), (n : Int) - (cs : Int),
   elapsedMs, 1 - (cs : ℚ) / ((133 * n / 100 : Nat) : ℚ),
   if hasBase64Suffix method then some level else none⟩

/-- The (string, recorded-method) pair `compress_data` always obtains:
the try-block dispatch followed by the emergency Base64 fallback. -/
def compressOutput (bk : Backends) (caps : Caps) (data : List Nat) (method : String)
    (level : Nat) (tel : String → ℚ) : List Char × String :=
  fallbackResult data (tryCompress bk caps data (resolveMethod caps data method) level tel)

/-- `compress_data`: resolve `"auto"`, run the codec with the fallback
chain (so a string is always produced), then build metadata and update
the statistics.  The metric `compression_ratio = 1 -
compressed_size/original_size` divides by `original_size`, so an empty
payload raises ZeroDivisionError — modelled as `none` — before the
statistics are updated.  `tel` supplies the hybrid benchmark timings and
`elapsedMs` the measured processing time (wall-clock inputs of the
model). -/
def compressData (bk : Backends) (caps : Caps) (data : List Nat) (method : String)
    (level : Nat) (tel : String → ℚ) (elapsedMs : ℚ) (stats : Stats) :
    Option (List Char × CompressionMetadata × Stats) :=
  if data.length = 0 then none
  else
    some ((compressOutput bk caps data method level tel).1,
      mkMeta (compressOutput bk caps data method level tel).2 data.length
        (utf8Length (compressOutput bk caps data method level tel).1) elapsedMs level,
      updateStats stats (compressOutput bk caps data method level tel).2 data.length
        (utf8Length (compressOutput bk caps data method level tel).1) elapsedMs)

/-- `decompress_data`: dispatch on `metadata["method"]`; an unrecognized
name — including `"hybrid"`, for which no branch exists — raises
ValueError (`none`). -/
def decompressData (bk : Backends) (method : String) (s : List Char) : Option (List Nat) :=
  if method = "gzip_base64" then (b64Decode s).bind bk.gzipDecompress
  else if method = "deflate_base64" then (b64Decode s).bind bk.zlibDecompress
  else if method = "brotli_base64" then (b64Decode s).bind bk.brotliDecompress
  else if method = "lz4_base64" then (b64Decode s).bind bk.lz4Decompress
  else if method = "zstd_base64" then (b64Decode s).bind bk.zstdDecompress
  else if method = "z85" then decodeZ85 s
  else if method = "base91" then decodeB91 s
  else if method = "streaming_gzip" then streamingGunzip bk s
  else if method = "base64_only" then b64Decode s
  else none

/-- The method names `decompress_data` recognizes (its dispatch table). -/
def knownMethods : List String :=
  ["gzip_base64", "deflate_base64", "brotli_base64", "lz4_base64", "zstd_base64",
   "z85", "base91", "streaming_gzip", "base64_only"]

-- ===== statistics invariants (claim C9 machinery) =====

/-- Pointwise "no total decreased" order on statistics records. -/
def statsLE (s t : Stats) : Prop :=
  s.filesProcessed ≤ t.filesProcessed ∧ s.totalOriginalSize ≤ t.totalOriginalSize ∧
  s.totalCompressedSize ≤ t.totalCompressedSize ∧
  s.totalProcessingTime ≤ t.totalProcessingTime ∧
  ∀ m : String, usageCount s.methodUsage m ≤ usageCount t.methodUsage m

/-- The per-call arguments of one `compress_data` invocation (with the
wall-clock readings `tel` and `elapsed` as explicit inputs). -/
structure CallParams where
  data : List Nat
  method : String
  level : Nat
  tel : String → ℚ
  elapsed : ℚ

/-- One `compress_data` call threaded through the statistics field: a
completed call installs the updated statistics, a raising call leaves
them untouched. -/
def stepCall (bk : Backends) (caps : Caps) (s : Stats) (c : CallParams) : Stats :=
  match compressData bk caps c.data c.method c.level c.tel c.elapsed s with
  | some r => r.2.2
  | none => s

/-- A sequence of `compress_data` calls on one engine instance. -/
def runCalls (bk : Backends) (caps : Caps) (s : Stats) (calls : List CallParams) : Stats :=
  calls.foldl (stepCall bk caps) s

-- ===== claim-level auxiliary definitions =====

/-- Modelled from the spec (claim C4): the pure selector
`select(payload_size, content_type_hint, capabilities)` of §4.4,
applying the ordered first-match rules with the fixed thresholds, as the
spec states them. -/
def selectSpecC4 (caps : Caps) (size : Nat) (hint : String) : String :=
  if size > 10 * 1024 * 1024 then "streaming_gzip"
  else if (hint ∈ ["image", "video", "audio"]) ∧ size > 100 * 1024 then "z85"
  else if hint ∈ ["pdf", "text", "json", "xml"] then
    if caps.zstd ∧ size > 1024 * 1024 then "zstd_base64"
    else if caps.brotli then "brotli_base64"
    else "gzip_base64"
  else if size < 100 * 1024 then (if caps.lz4 then "lz4_base64" else "z85")
  else if size < 1024 * 1024 then "gzip_base64"
  else "hybrid"

/-- The selection rules that remain reachable under the hint
`"unknown"`: a function of the payload size and the capability set
alone — no content-type hint appears. -/
def autoHintFree (caps : Caps) (size : Nat) : String :=
  if size > 10 * 1024 * 1024 then "streaming_gzip"
  else if size < 100 * 1024 then (if caps.lz4 then "lz4_base64" else "z85")
  else if size < 1024 * 1024 then "gzip_base64"
  else "hybrid"

/-- A structurally malformed self-describing frame in the sense of the
spec: missing tag, wrong part count after splitting on the first two
colons, or a non-numeric count field. -/
def malformedFrame (tag : String) (s : List Char) : Prop :=
  tag.toList.isPrefixOf s = false ∨ (split2Colon s).length ≠ 3 ∨
    parseNat ((split2Colon s).getD 1 []) = none

/-- A STREAM frame whose declared chunk count parses but differs from
the number of `|`-separated segments actually present. -/
def streamCountMismatch (s : List Char) : Prop :=
  "STREAM:".toList.isPrefixOf s = true ∧ (split2Colon s).length = 3 ∧
    parseNat ((split2Colon s).getD 1 []) ≠ none ∧
    parseNat ((split2Colon s).getD 1 []) ≠
      some (pySplit '|' ((split2Colon s).getD 2 [])).length

instance (tag : String) (s : List Char) : Decidable (malformedFrame tag s) := by
  unfold malformedFrame
  exact inferInstance

instance (s : List Char) : Decidable (streamCountMismatch s) := by
  unfold streamCountMismatch
  exact inferInstance

/-- The running maximum of the scores of `x :: xs` (the reference value
for the benchmark comparison). -/
def foldMaxScore (f : α → ℚ) (x : α) (xs : List α) : ℚ :=
  xs.foldl (fun a y => max a (f y)) (f x)

/-- Backends all of whose compressors raise: exercises the pure in-repo
code paths in concrete evaluations. -/
def bkNone : Backends :=
  ⟨fun _ _ => none, fun _ => none, fun _ _ => none, fun _ => none, fun _ _ => none,
   fun _ => none, fun _ => none, fun _ => none, fun _ _ => none, fun _ => none⟩

/-- Capability set with no optional backend available. -/
def capsNone : Caps :=
  ⟨false, false, false⟩

/-- The single benchmark candidate measured when hybrid-compressing the
one-byte payload `[1]` with failing backends and zero timings. -/
def hcandZ85 : HCand :=
  ⟨"z85", encodeZ85 [1], 11, 1 / ((11 : ℚ) * (4 / 5) + 0 * 1000 * (1 / 5))⟩

/-- A malformed-looking but well-framed Z85 artifact: three parts, a
numeric padding field, and a 5-character group of symbols outside the
Z85 alphabet. -/
def badZ85 : List Char :=
  "Z85:0:~~~~~".toList

/-- A one-call demonstration sequence for the statistics invariant. -/
def demoCalls : List CallParams :=
  [⟨[1, 2], "z85", 6, fun _ => 0, 0⟩]

theorem isPrefixOf_append_self (p t : List Char) : p.isPrefixOf (p ++ t) = true := by
  rw [ List.isPrefixOf_iff_prefix]
  exact List.prefix_append p t

theorem splitFirst_append (sep : Char) (a r : List Char) (h : sep ∉ a) :
    splitFirst sep (a ++ sep :: r) = some (a, r) := by
  induction a with
  | nil => simp [splitFirst]
  | cons c cs ih =>
    have hc : ¬(c = sep) := fun e => h (by simp [e])
    have ih2 := ih (fun hm => h (List.mem_cons_of_mem _ hm))
    simp [splitFirst, if_neg hc, ih2]

theorem split2Colon_frame (a b c : List Char) (ha : ':' ∉ a) (hb : ':' ∉ b) :
    split2Colon (a ++ ':' :: (b ++ ':' :: c)) = [a, b, c] := by
  simp [split2Colon, splitFirst_append _ _ _ ha, splitFirst_append _ _ _ hb]

set_option maxRecDepth 8000 in
theorem z85Index_z85Digit : ∀ d ∈ List.range 85, z85Index (z85Digit d) = some d := by decide

theorem z85_value_roundtrip (v : Nat) (hv : v < 4294967296) :
    (((v / 52200625 % 85 * 85 + v / 614125 % 85) * 85 + v / 7225 % 85) * 85 +
      v / 85 % 85) * 85 + v % 85 = v := by omega

theorem z85ToBytes4_z85FromBytes4 (b1 b2 b3 b4 : Nat) (h1 : b1 < 256) (h2 : b2 < 256)
    (h3 : b3 < 256) (h4 : b4 < 256) :
    z85ToBytes4 (z85FromBytes4 b1 b2 b3 b4) = [b1, b2, b3, b4] := by
  simp only [z85ToBytes4, z85FromBytes4, List.cons.injEq, and_true]
  refine ⟨?_, ?_, ?_, ?_⟩ <;> omega

theorem natRepr_pad_facts (pad : Nat) (h : pad < 4) :
    ':' ∉ natRepr pad ∧ parseNat (natRepr pad) = some pad := by
  interval_cases pad <;> exact (by decide)

theorem z85DecodeGroups_z85EncGroups :
    ∀ (n : Nat) (l : List Nat), l.length = n → l.length % 4 = 0 → (∀ x ∈ l, x < 256) →
      z85DecodeGroups (z85EncGroups l) = some l := by
  intro n
  induction n using Nat.strong_induction_on with
  | _ n ih =>
    intro l hl hm hb
    match l with
    | [] => rfl
    | [a] => simp at hm
    | [a, b] => simp at hm
    | [a, b, c] => simp at hm
    | a :: b :: c :: d :: rest =>
      have ha : a < 256 := hb a (by simp)
      have hbb : b < 256 := hb b (by simp)
      have hcc : c < 256 := hb c (by simp)
      have hdd : d < 256 := hb d (by simp)
      have hv : z85FromBytes4 a b c d < 4294967296 := by
        simp only [z85FromBytes4]; omega
      have hrest : rest.length % 4 = 0 := by simp at hm; omega
      have hrec : z85DecodeGroups (z85EncGroups rest) = some rest := by
        refine ih rest.length ?_ rest rfl hrest (fun x hx => hb x (by simp [hx]))
        simp at hl; omega
      set v := z85FromBytes4 a b c d with hvdef
      have h1 := z85Index_z85Digit (v / 52200625 % 85)
        (List.mem_range.mpr (Nat.mod_lt _ (by norm_num)))
      have h2 := z85Index_z85Digit (v / 614125 % 85)
        (List.mem_range.mpr (Nat.mod_lt _ (by norm_num)))
      have h3 := z85Index_z85Digit (v / 7225 % 85)
        (List.mem_range.mpr (Nat.mod_lt _ (by norm_num)))
      have h4 := z85Index_z85Digit (v / 85 % 85)
        (List.mem_range.mpr (Nat.mod_lt _ (by norm_num)))
      have h5 := z85Index_z85Digit (v % 85)
        (List.mem_range.mpr (Nat.mod_lt _ (by norm_num)))
      show z85DecodeGroups (z85Digits5 v ++ z85EncGroups rest) = _
      simp only [z85Digits5, List.cons_append, List.nil_append, z85DecodeGroups,
        h1, h2, h3, h4, h5]
      rw [z85_value_roundtrip v hv]
      rw [if_pos hv]
      rw [show ([] : List Char).append (z85EncGroups rest) = z85EncGroups rest from rfl]
      rw [hrec]
      rw [z85ToBytes4_z85FromBytes4 a b c d ha hbb hcc hdd]
      rfl

theorem decodeZ85_encodeZ85 (data : List Nat) (hb : ∀ x ∈ data, x < 256) :
    decodeZ85 (encodeZ85 data) = some data := by
  have hplt : (4 - data.length % 4) % 4 < 4 := by omega
  obtain ⟨hnc, hpn⟩ := natRepr_pad_facts _ hplt
  have hlen : (data ++ List.replicate ((4 - data.length % 4) % 4) 0).length % 4 = 0 := by
    simp [List.length_append]
    omega
  have hgb : ∀ x ∈ data ++ List.replicate ((4 - data.length % 4) % 4) 0, x < 256 := by
    intro x hx
    rcases List.mem_append.mp hx with h | h
    · exact hb x h
    · have := List.eq_of_mem_replicate h
      omega
  have hgroups := z85DecodeGroups_z85EncGroups _ _ rfl hlen hgb
  unfold encodeZ85 decodeZ85
  have hshape : "Z85:".toList ++ natRepr ((4 - data.length % 4) % 4) ++
      ':' :: z85EncGroups (data ++ List.replicate ((4 - data.length % 4) % 4) 0)
      = ['Z', '8', '5'] ++ ':' :: (natRepr ((4 - data.length % 4) % 4) ++
        ':' :: z85EncGroups (data ++ List.replicate ((4 - data.length % 4) % 4) 0)) := by
    simp
  rw [hshape]
  rw [show (['Z', '8', '5'] ++ ':' :: (natRepr ((4 - data.length % 4) % 4) ++
      ':' :: z85EncGroups (data ++ List.replicate ((4 - data.length % 4) % 4) 0)))
      = "Z85:".toList ++ (natRepr ((4 - data.length % 4) % 4) ++
      ':' :: z85EncGroups (data ++ List.replicate ((4 - data.length % 4) % 4) 0)) from by simp]
  rw [if_pos (isPrefixOf_append_self _ _)]
  rw [show "Z85:".toList ++ (natRepr ((4 - data.length % 4) % 4) ++
      ':' :: z85EncGroups (data ++ List.replicate ((4 - data.length % 4) % 4) 0))
      = ['Z', '8', '5'] ++ ':' :: (natRepr ((4 - data.length % 4) % 4) ++
      ':' :: z85EncGroups (data ++ List.replicate ((4 - data.length % 4) % 4) 0)) from by simp]
  rw [split2Colon_frame _ _ _ (by decide) hnc]
  simp only [hpn, hgroups]
  by_cases hp0 : 0 < (4 - data.length % 4) % 4
  · rw [if_pos hp0]
    have : (data ++ List.replicate ((4 - data.length % 4) % 4) 0).length -
        (4 - data.length % 4) % 4 = data.length := by
      simp [List.length_append]
    rw [this]
    rw [List.take_left']
    simp
  · rw [if_neg hp0]
    have hz : (4 - data.length % 4) % 4 = 0 := by omega
    rw [hz]
    simp

theorem b91EncodeCore_length (data : List Nat) :
    ∀ v b : Nat, b ≤ 13 →
      (b91EncodeCore data v b).length = (8 * data.length + b + 12) / 13 := by
  induction data with
  | nil =>
    intro v b hb
    simp only [b91EncodeCore, List.length_nil]
    by_cases h : 0 < b
    · rw [if_pos h]; simp; omega
    · rw [if_neg h]; simp; omega
  | cons x rest ih =>
    intro v b hb
    simp only [b91EncodeCore, List.length_cons]
    by_cases h : b + 8 > 13
    · rw [if_pos h]
      simp only [List.length_cons]
      rw [ih _ (b + 8 - 13) (by omega)]
      omega
    · rw [if_neg h]
      rw [ih _ (b + 8) (by omega)]
      omega

theorem optionMapAll_length (f : α → Option β) :
    ∀ (l : List α) (l2 : List β), optionMapAll f l = some l2 → l2.length = l.length := by
  intro l
  induction l with
  | nil => intro l2 h; simp [optionMapAll] at h; simp [← h]
  | cons x xs ih =>
    intro l2 h
    simp only [optionMapAll] at h
    rcases hfx : f x with _ | y <;> rw [hfx] at h
    · exact absurd h (by simp)
    · rcases hrest : optionMapAll f xs with _ | ys <;> rw [hrest] at h
      · exact absurd h (by simp)
      · simp at h
        rw [← h]
        simp [ih ys hrest]

theorem foldMaxScore_cons (f : α → ℚ) (x y : α) (ys : List α) :
    (ys.foldl (fun a z => max a (f z)) (max (f x) (f y))) =
      ys.foldl (fun a z => max a (f z)) (f (if f x < f y then y else x)) := by
  by_cases h : f x < f y
  · rw [if_pos h, max_eq_right h.le]
  · rw [if_neg h, max_eq_left (le_of_not_lt h)]

theorem pyMax_first_max (f : α → ℚ) :
    ∀ (xs : List α) (x : α),
      some (pyMax f x xs) =
        (x :: xs).find? (fun y => decide (f y = foldMaxScore f x xs)) ∧
      ∀ y ∈ x :: xs, f y ≤ foldMaxScore f x xs := by
  intro xs
  induction xs with
  | nil =>
    intro x
    constructor
    · simp [pyMax, foldMaxScore, List.find?]
    · intro y hy
      simp at hy
      subst hy
      simp [foldMaxScore]
  | cons y ys ih =>
    intro x
    have hM : foldMaxScore f x (y :: ys) = foldMaxScore f (if f x < f y then y else x) ys := by
      simp only [foldMaxScore, List.foldl]
      exact foldMaxScore_cons f x y ys
    have hpm : pyMax f x (y :: ys) = pyMax f (if f x < f y then y else x) ys := rfl
    obtain ⟨ih1, ih2⟩ := ih (if f x < f y then y else x)
    have hzle : f (if f x < f y then y else x) ≤
        foldMaxScore f (if f x < f y then y else x) ys :=
      ih2 _ (List.mem_cons_self _ _)
    have hxle : f x ≤ foldMaxScore f x (y :: ys) := by
      rw [hM]
      refine le_trans ?_ hzle
      by_cases h : f x < f y
      · rw [if_pos h]; exact h.le
      · rw [if_neg h]
    have hyle : f y ≤ foldMaxScore f x (y :: ys) := by
      rw [hM]
      refine le_trans ?_ hzle
      by_cases h : f x < f y
      · rw [if_pos h]
      · rw [if_neg h]; exact le_of_not_lt h
    refine ⟨?_, ?_⟩
    · rw [hpm, hM, ih1]
      by_cases h : f x < f y
      · rw [if_pos h] at *
        have hxne : ¬(f x = foldMaxScore f y ys) := by
          have : f y ≤ foldMaxScore f y ys := hzle
          intro e
          rw [e] at h
          exact absurd (lt_of_lt_of_le h this) (lt_irrefl _)
        conv_rhs => rw [List.find?_cons_of_neg _ (by simpa using hxne)]
      · rw [if_neg h] at *
        by_cases hx : f x = foldMaxScore f x ys
        · rw [List.find?_cons_of_pos _ (by simpa using hx),
            List.find?_cons_of_pos _ (by simpa using hx)]
        · rw [List.find?_cons_of_neg _ (by simpa using hx),
            List.find?_cons_of_neg _ (by simpa using hx)]
          have hyne : ¬(f y = foldMaxScore f x ys) := by
            intro e
            have h1 : f y ≤ f x := le_of_not_lt h
            have h2 : f x ≤ foldMaxScore f x ys := hzle
            rw [e] at h1
            exact hx (le_antisymm h2 h1)
          rw [List.find?_cons_of_neg _ (by simpa using hyne)]
    · intro w hw
      rcases List.mem_cons.mp hw with h | hw2
      · subst h; exact hxle
      rcases List.mem_cons.mp hw2 with h | hw3
      · subst h; exact hyle
      · rw [hM]
        exact ih2 w (List.mem_cons_of_mem _ hw3)

theorem usageCount_bumpUsage (u : List (String × Nat)) (m m2 : String) :
    usageCount (bumpUsage u m) m2 = usageCount u m2 + (if m2 = m then 1 else 0) := by
  induction u with
  | nil =>
    by_cases h : m2 = m
    · subst h; simp [bumpUsage, usageCount]
    · have hs : ¬(m = m2) := fun e => h e.symm
      simp [bumpUsage, usageCount, h, hs]
  | cons kv rest ih =>
    obtain ⟨k, v⟩ := kv
    by_cases hk : k = m
    · subst hk
      by_cases h2 : m2 = k
      · subst h2; simp [bumpUsage, usageCount]
      · have h2s : ¬(k = m2) := fun e => h2 e.symm
        simp [bumpUsage, usageCount, h2, h2s]
    · by_cases h2 : k = m2
      · have hs : ¬(m2 = m) := fun e => hk (h2.trans e)
        simp [bumpUsage, usageCount, hk, h2, hs]
      · simp [bumpUsage, usageCount, hk, h2, ih]

theorem statsLE_refl (s : Stats) : statsLE s s :=
  ⟨le_refl _, le_refl _, le_refl _, le_refl _, fun _ => le_refl _⟩

theorem statsLE_trans {s t u : Stats} (h1 : statsLE s t) (h2 : statsLE t u) : statsLE s u :=
  ⟨le_trans h1.1 h2.1, le_trans h1.2.1 h2.2.1, le_trans h1.2.2.1 h2.2.2.1,
   le_trans h1.2.2.2.1 h2.2.2.2.1, fun m => le_trans (h1.2.2.2.2 m) (h2.2.2.2.2 m)⟩

theorem statsLE_updateStats (s : Stats) (m : String) (n cs : Nat) (t : ℚ) (ht : 0 ≤ t) :
    statsLE s (updateStats s m n cs t) := by
  refine ⟨by simp [updateStats], by simp [updateStats], by simp [updateStats],
    by simp [updateStats]; linarith, ?_⟩
  intro m2
  simp only [updateStats]
  rw [usageCount_bumpUsage]
  omega

theorem stepCall_eq_update (bk : Backends) (caps : Caps) (s : Stats) (c : CallParams)
    (h : c.data.length ≠ 0) :
    stepCall bk caps s c =
      updateStats s (compressOutput bk caps c.data c.method c.level c.tel).2 c.data.length
        (utf8Length (compressOutput bk caps c.data c.method c.level c.tel).1) c.elapsed := by
  simp [stepCall, compressData, h]

theorem stepCall_statsLE (bk : Backends) (caps : Caps) (s : Stats) (c : CallParams)
    (ht : 0 ≤ c.elapsed) : statsLE s (stepCall bk caps s c) := by
  by_cases h : c.data.length = 0
  · simp [stepCall, compressData, h]
    exact statsLE_refl s
  · rw [stepCall_eq_update bk caps s c h]
    exact statsLE_updateStats _ _ _ _ _ ht

theorem runCalls_cons (bk : Backends) (caps : Caps) (s : Stats) (c : CallParams)
    (cs : List CallParams) :
    runCalls bk caps s (c :: cs) = runCalls bk caps (stepCall bk caps s c) cs := rfl

theorem runCalls_append (bk : Backends) (caps : Caps) (s : Stats)
    (l1 l2 : List CallParams) :
    runCalls bk caps s (l1 ++ l2) = runCalls bk caps (runCalls bk caps s l1) l2 := by
  simp [runCalls, List.foldl_append]

theorem runCalls_totals (bk : Backends) (caps : Caps) :
    ∀ (calls : List CallParams) (s : Stats), (∀ c ∈ calls, c.data.length ≠ 0) →
      (runCalls bk caps s calls).filesProcessed = s.filesProcessed + calls.length ∧
      (runCalls bk caps s calls).totalOriginalSize =
        s.totalOriginalSize + (calls.map (fun c => c.data.length)).sum := by
  intro calls
  induction calls with
  | nil => intro s _; simp [runCalls]
  | cons c cs ih =>
    intro s h
    have hc := h c (by simp)
    have hrest : ∀ x ∈ cs, x.data.length ≠ 0 := fun x hx => h x (by simp [hx])
    obtain ⟨ihf, iho⟩ := ih (stepCall bk caps s c) hrest
    rw [runCalls_cons]
    constructor
    · rw [ihf, stepCall_eq_update bk caps s c hc]
      simp [updateStats]
      omega
    · rw [iho, stepCall_eq_update bk caps s c hc]
      simp [updateStats]
      omega

theorem runCalls_statsLE (bk : Backends) (caps : Caps) :
    ∀ (calls : List CallParams) (s : Stats), (∀ c ∈ calls, 0 ≤ c.elapsed) →
      statsLE s (runCalls bk caps s calls) := by
  intro calls
  induction calls with
  | nil => intro s _; exact statsLE_refl s
  | cons c cs ih =>
    intro s h
    rw [runCalls_cons]
    exact statsLE_trans (stepCall_statsLE bk caps s c (h c (by simp)))
      (ih _ (fun x hx => h x (by simp [hx])))

/-- C1: the round-trip invariant `decode(encode(p)) == p` fails for the
Base91 codec: on the two-byte payload `[0, 0]` the encoder emits
`"B91:AA"` and the decoder returns three bytes — the original two plus a
spurious zero byte produced by draining the 13-bits-per-symbol
accumulator past the end of the payload. -/
theorem c1_base91_roundtrip_failure :
    encodeB91 [0, 0] = some "B91:AA".toList ∧
    (encodeB91 [0, 0]).bind decodeB91 = some [0, 0, 0] ∧
    some [0, 0, 0] ≠ some ([0, 0] : List Nat) := by decide

/-- C2: `_hybrid_compress` records method `"hybrid"` and frames its
output as `"HYBRID:<name>:<artifact>"`, but `decompress_data` has no
`"hybrid"` branch: for every payload the hybrid artifact, presented with
`metadata.method = "hybrid"`, raises an unknown-method error instead of
decoding to the payload. -/
theorem c2_hybrid_artifact_not_decodable (bk : Backends) (caps : Caps) (data : List Nat)
    (level : Nat) (tel : String → ℚ) :
    (compressOutput bk caps data "hybrid" level tel).2 = "hybrid" ∧
    decompressData bk "hybrid" (compressOutput bk caps data "hybrid" level tel).1 = none := by
  constructor
  · simp [compressOutput, resolveMethod, tryCompress, fallbackResult]
  · simp [decompressData]

/-- C3: `compress_data` raises ZeroDivisionError on the empty payload
(computing `1 - compressed_size/original_size` with
`original_size = 0`), for every method, level and backend set — the
claim that it never raises fails exactly there. -/
theorem c3_empty_payload_raises (bk : Backends) (caps : Caps) (method : String)
    (level : Nat) (tel : String → ℚ) (elapsedMs : ℚ) (stats : Stats) :
    compressData bk caps [] method level tel elapsedMs stats = none := by
  simp [compressData]

/-- C4: `determine_optimal_method` is the pure ordered-rule selector the
spec describes: it agrees with the spec-worded `selectSpecC4` on every
payload, hint and capability set (in particular it depends on the
payload only through its length). -/
theorem c4_selector_matches_spec (caps : Caps) (data : List Nat) (fileType : String) :
    determineOptimalMethod caps data fileType = selectSpecC4 caps data.length fileType := by
  simp [determineOptimalMethod, selectSpecC4]

/-- C10: with `method="auto"`, `compress_data` invokes the selector
without a content-type argument, so the hint stays `"unknown"`; under
that hint the media and text rules cannot fire and the selection
reduces to `autoHintFree`, a function of payload size and backend
availability only. -/
theorem c10_auto_ignores_hint (caps : Caps) (data : List Nat) :
    resolveMethod caps data "auto" = determineOptimalMethod caps data "unknown" ∧
    determineOptimalMethod caps data "unknown" = autoHintFree caps data.length := by
  constructor
  · simp [resolveMethod]
  · simp [determineOptimalMethod, autoHintFree]

/-- C6: for every payload whose length is not a multiple of 4, Z85
encoding records the nonzero padding count `(4 - len % 4) % 4` in the
`"Z85:<padding>:"` frame; decoding converts each 5-character group back
to 4 big-endian bytes — reproducing the zero-padded payload — and then
removes exactly `padding` trailing bytes, returning the original
payload. -/
theorem c6_z85_padding (data : List Nat) (hb : ∀ x ∈ data, x < 256)
    (hm : data.length % 4 ≠ 0) :
    0 < (4 - data.length % 4) % 4 ∧
    encodeZ85 data = "Z85:".toList ++ natRepr ((4 - data.length % 4) % 4) ++
      ':' :: z85EncGroups (data ++ List.replicate ((4 - data.length % 4) % 4) 0) ∧
    z85DecodeGroups (z85EncGroups (data ++ List.replicate ((4 - data.length % 4) % 4) 0)) =
      some (data ++ List.replicate ((4 - data.length % 4) % 4) 0) ∧
    decodeZ85 (encodeZ85 data) = some data := by
  refine ⟨by omega, rfl, ?_, decodeZ85_encodeZ85 data hb⟩
  apply z85DecodeGroups_z85EncGroups _ _ rfl
  · simp [List.length_append]
    omega
  · intro x hx
    rcases List.mem_append.mp hx with h | h
    · exact hb x h
    · have := List.eq_of_mem_replicate h
      omega

/-- C6 witness: the one-byte payload `[7]` has padding count 3 and
round-trips through the Z85 codec. -/
theorem c6_witness :
    0 < (4 - ([7] : List Nat).length % 4) % 4 ∧
    encodeZ85 [7] = "Z85:".toList ++ natRepr ((4 - ([7] : List Nat).length % 4) % 4) ++
      ':' :: z85EncGroups ([7] ++ List.replicate ((4 - ([7] : List Nat).length % 4) % 4) 0) ∧
    z85DecodeGroups (z85EncGroups
        ([7] ++ List.replicate ((4 - ([7] : List Nat).length % 4) % 4) 0)) =
      some ([7] ++ List.replicate ((4 - ([7] : List Nat).length % 4) % 4) 0) ∧
    decodeZ85 (encodeZ85 [7]) = some [7] :=
  c6_z85_padding [7] (by decide) (by decide)

/-- C7 counterexample: the claim quantifies over every payload, but on
the one-byte payload `[255]` the Base91 encoder emits no symbol string
at all: the single emitted 13-bit value is 255, `alphabet[255]` is out
of range for the 91-symbol alphabet, and the encoder raises IndexError,
so no symbol count in the claimed interval exists. -/
theorem c7_counterexample :
    encodeB91 [255] = none ∧ b91EncodeCore [255] 0 0 = [255] ∧ b91Symbol 255 = none := by
  decide

/-- C7 (amended): whenever Base91 encoding succeeds — every emitted
13-bit value indexes the alphabet — the number of symbols after the
`"B91:"` prefix satisfies `ceil(8N/13) ≤ count ≤ ceil(8N/13) + 1` (in
fact the count always equals `ceil(8N/13) = (8N + 12) / 13`). -/
theorem c7_b91_symbol_count (data : List Nat) (cs : List Char)
    (h : encodeB91 data = some cs) :
    (8 * data.length + 12) / 13 ≤ cs.length - 4 ∧
    cs.length - 4 ≤ (8 * data.length + 12) / 13 + 1 := by
  have hcore := b91EncodeCore_length data 0 0 (by omega)
  unfold encodeB91 at h
  rcases hmm : optionMapAll b91Symbol (b91EncodeCore data 0 0) with _ | syms
  · rw [hmm] at h
    exact absurd h (by simp)
  · rw [hmm] at h
    simp only [Option.some.injEq] at h
    have hlen := optionMapAll_length _ _ _ hmm
    have hcs : cs.length = 4 + syms.length := by
      rw [← h]
      simp
      omega
    rw [hcs]
    constructor <;> omega

/-- C7 witness: the payload `[0, 0]` encodes to `"B91:AA"`, whose
2-symbol count equals `ceil(16/13) = 2`. -/
theorem c7_witness :
    (8 * ([0, 0] : List Nat).length + 12) / 13 ≤ "B91:AA".toList.length - 4 ∧
    "B91:AA".toList.length - 4 ≤ (8 * ([0, 0] : List Nat).length + 12) / 13 + 1 :=
  c7_b91_symbol_count [0, 0] "B91:AA".toList (by decide)

/-- C8: the hybrid benchmarker scores every surviving candidate as
`1 / (size*0.8 + elapsed_ms*0.2)` (built into `hybridCandidates` via
`mkCandidate`), frames the candidate selected by the Python
`max(candidates, key=...)` fold, and that selection is the earliest
candidate in the enumeration order attaining the maximal score — hence
repeated runs with the same measured sizes and times produce the same
winning codec name. -/
theorem c8_hybrid_selection (bk : Backends) (caps : Caps) (data : List Nat)
    (tel : String → ℚ) (c : HCand) (cs : List HCand)
    (h : hybridCandidates bk caps data tel = c :: cs) :
    hybridCompress bk caps data tel =
      "HYBRID:".toList ++ (pyMax HCand.score c cs).name.toList ++
        ':' :: (pyMax HCand.score c cs).result ∧
    some (pyMax HCand.score c cs) =
      (c :: cs).find? (fun y => decide (HCand.score y = foldMaxScore HCand.score c cs)) ∧
    ∀ y ∈ c :: cs, HCand.score y ≤ HCand.score (pyMax HCand.score c cs) := by
  obtain ⟨h1, h2⟩ := pyMax_first_max HCand.score cs c
  have hp := List.find?_some h1.symm
  have hbest : HCand.score (pyMax HCand.score c cs) = foldMaxScore HCand.score c cs := by
    simpa using hp
  refine ⟨?_, h1, ?_⟩
  · simp only [hybridCompress, h]
  · intro y hy
    rw [hbest]
    exact h2 y hy

/-- C8 witness: on the payload `[1]` with failing backends the only
candidate is the Z85 one, and hybrid frames it. -/
theorem c8_witness :
    hybridCompress bkNone capsNone [1] (fun _ => 0) =
      "HYBRID:".toList ++ (pyMax HCand.score hcandZ85 []).name.toList ++
        ':' :: (pyMax HCand.score hcandZ85 []).result :=
  (c8_hybrid_selection bkNone capsNone [1] (fun _ => 0) hcandZ85 [] (by
    have hu : utf8Length (encodeZ85 [1]) = 11 := by decide
    simp only [hybridCandidates, hybridMethods, capsNone, hybridTry, bkNone,
      gzipThenBase64, deflateThenBase64, mkCandidate, hu, hcandZ85]
    norm_num
    simp [List.filterMap_cons, hu]
    norm_num)).1

theorem split2Colon_cases (s : List Char) :
    (∃ a, split2Colon s = [a]) ∨ (∃ a b, split2Colon s = [a, b]) ∨
      ∃ a b c, split2Colon s = [a, b, c] := by
  rcases h1 : splitFirst ':' s with _ | ⟨a, r⟩
  · exact Or.inl ⟨s, by simp [split2Colon, h1]⟩
  · rcases h2 : splitFirst ':' r with _ | ⟨b, r2⟩
    · exact Or.inr (Or.inl ⟨a, r, by simp [split2Colon, h1, h2]⟩)
    · exact Or.inr (Or.inr ⟨a, b, r2, by simp [split2Colon, h1, h2]⟩)

theorem decodeZ85_malformed (s : List Char) (h : malformedFrame "Z85:" s) :
    decodeZ85 s = none := by
  rcases h with hp | hl | hn
  · unfold decodeZ85
    rw [if_neg (by rw [hp]; exact Bool.false_ne_true)]
  · unfold decodeZ85
    by_cases hpre : "Z85:".toList.isPrefixOf s
    · rw [if_pos hpre]
      rcases split2Colon_cases s with ⟨a, he⟩ | ⟨a, b, he⟩ | ⟨a, b, c, he⟩
      · rw [he]
      · rw [he]
      · rw [he] at hl
        simp at hl
    · rw [if_neg hpre]
  · unfold decodeZ85
    by_cases hpre : "Z85:".toList.isPrefixOf s
    · rw [if_pos hpre]
      rcases split2Colon_cases s with ⟨a, he⟩ | ⟨a, b, he⟩ | ⟨a, b, c, he⟩
      · rw [he]
      · rw [he]
      · rw [he] at hn
        simp only [List.getD_cons_succ, List.getD_cons_zero] at hn
        rw [he]
        simp [hn]
    · rw [if_neg hpre]

theorem decodeB91_no_tag (s : List Char) (h : "B91:".toList.isPrefixOf s = false) :
    decodeB91 s = none := by
  unfold decodeB91
  rw [if_neg (by rw [h]; exact Bool.false_ne_true)]

theorem streamingGunzip_malformed (bk : Backends) (s : List Char)
    (h : malformedFrame "STREAM:" s) : streamingGunzip bk s = none := by
  rcases h with hp | hl | hn
  · unfold streamingGunzip
    rw [if_neg (by rw [hp]; exact Bool.false_ne_true)]
  · unfold streamingGunzip
    by_cases hpre : "STREAM:".toList.isPrefixOf s
    · rw [if_pos hpre]
      rcases split2Colon_cases s with ⟨a, he⟩ | ⟨a, b, he⟩ | ⟨a, b, c, he⟩
      · rw [he]
      · rw [he]
      · rw [he] at hl
        simp at hl
    · rw [if_neg hpre]
  · unfold streamingGunzip
    by_cases hpre : "STREAM:".toList.isPrefixOf s
    · rw [if_pos hpre]
      rcases split2Colon_cases s with ⟨a, he⟩ | ⟨a, b, he⟩ | ⟨a, b, c, he⟩
      · rw [he]
      · rw [he]
      · rw [he] at hn
        simp only [List.getD_cons_succ, List.getD_cons_zero] at hn
        rw [he]
        simp [hn]
    · rw [if_neg hpre]

theorem streamingGunzip_mismatch (bk : Backends) (s : List Char)
    (h : streamCountMismatch s) : streamingGunzip bk s = none := by
  obtain ⟨hpre, hl, hn, hne⟩ := h
  unfold streamingGunzip
  rw [if_pos hpre]
  rcases split2Colon_cases s with ⟨a, he⟩ | ⟨a, b, he⟩ | ⟨a, b, c, he⟩
  · rw [he] at hl
    simp at hl
  · rw [he] at hl
    simp at hl
  · rw [he] at hn hne
    simp only [List.getD_cons_succ, List.getD_cons_zero] at hn hne
    rw [he]
    rcases hcnt : parseNat b with _ | cnt
    · exact absurd hcnt hn
    · rw [hcnt] at hne
      have hif : ¬((pySplit '|' c).length = cnt) := fun e => hne (by rw [e])
      simp [hcnt, hif]

/-- C5 (amended): the three spec conditions are each sufficient for a
decode error — an unrecognized method name, a structurally malformed
self-describing frame (missing tag, wrong part count, non-numeric count
field), and a STREAM chunk-count mismatch all make `decompress_data`
raise — but they are not exhaustive: decoding can also fail on other
invalid content. -/
theorem c5_decode_error_conditions (bk : Backends) (method : String) (s : List Char) :
    (method ∉ knownMethods → decompressData bk method s = none) ∧
    (malformedFrame "Z85:" s → decompressData bk "z85" s = none) ∧
    ("B91:".toList.isPrefixOf s = false → decompressData bk "base91" s = none) ∧
    (malformedFrame "STREAM:" s → decompressData bk "streaming_gzip" s = none) ∧
    (streamCountMismatch s → decompressData bk "streaming_gzip" s = none) := by
  refine ⟨?_, ?_, ?_, ?_, ?_⟩
  · intro hm
    have h1 : ¬(method = "gzip_base64") := fun e => hm (by rw [e]; decide)
    have h2 : ¬(method = "deflate_base64") := fun e => hm (by rw [e]; decide)
    have h3 : ¬(method = "brotli_base64") := fun e => hm (by rw [e]; decide)
    have h4 : ¬(method = "lz4_base64") := fun e => hm (by rw [e]; decide)
    have h5 : ¬(method = "zstd_base64") := fun e => hm (by rw [e]; decide)
    have h6 : ¬(method = "z85") := fun e => hm (by rw [e]; decide)
    have h7 : ¬(method = "base91") := fun e => hm (by rw [e]; decide)
    have h8 : ¬(method = "streaming_gzip") := fun e => hm (by rw [e]; decide)
    have h9 : ¬(method = "base64_only") := fun e => hm (by rw [e]; decide)
    simp [decompressData, h1, h2, h3, h4, h5, h6, h7, h8, h9]
  · intro h
    simpa [decompressData] using decodeZ85_malformed s h
  · intro h
    simpa [decompressData] using decodeB91_no_tag s h
  · intro h
    simpa [decompressData] using streamingGunzip_malformed bk s h
  · intro h
    simpa [decompressData] using streamingGunzip_mismatch bk s h

/-- C5 counterexample: the biconditional reading fails — the artifact
`"Z85:0:~~~~~"` decoded with the recognized method `z85` raises (its
5-symbol group contains characters outside the Z85 alphabet) although
the method is known, the frame is structurally well formed with a
numeric count field, and no STREAM mismatch is involved. -/
theorem c5_counterexample :
    decompressData bkNone "z85" badZ85 = none ∧ "z85" ∈ knownMethods ∧
    ¬ malformedFrame "Z85:" badZ85 ∧ ¬ streamCountMismatch badZ85 := by
  decide

/-- C5 witness: an unrecognized method name raises. -/
theorem c5_witness : decompressData bkNone "bogus" [] = none :=
  (c5_decode_error_conditions bkNone "bogus" []).1 (by decide)

/-- C9: after any sequence of completed `compress_data` calls on one
engine instance (payloads non-empty so the metric computation completes,
measured times non-negative), `files_processed` equals the number of
calls, `total_original_size` equals the sum of the input payload
lengths, and every total and per-method usage count is non-decreasing
along the sequence; the accumulator changes only through the per-call
`_update_stats` deltas (`stepCall`). -/
theorem c9_stats_consistency (bk : Backends) (caps : Caps) (calls : List CallParams)
    (h1 : ∀ c ∈ calls, c.data.length ≠ 0) (h2 : ∀ c ∈ calls, 0 ≤ c.elapsed) :
    (runCalls bk caps initStats calls).filesProcessed = calls.length ∧
    (runCalls bk caps initStats calls).totalOriginalSize =
      (calls.map (fun c => c.data.length)).sum ∧
    ∀ i j : Nat, i ≤ j →
      statsLE (runCalls bk caps initStats (calls.take i))
        (runCalls bk caps initStats (calls.take j)) := by
  obtain ⟨hf, ho⟩ := runCalls_totals bk caps calls initStats h1
  refine ⟨by simpa [initStats] using hf, by simpa [initStats] using ho, ?_⟩
  intro i j hij
  have hdecomp : calls.take j = calls.take i ++ (calls.drop i).take (j - i) := by
    rw [← List.take_add]
    congr 1
    omega
  rw [hdecomp, runCalls_append]
  apply runCalls_statsLE
  intro c hc
  exact h2 c (List.drop_subset _ _ (List.take_subset _ _ hc))

/-- C9 witness: one completed `z85` call on the two-byte payload
`[1, 2]` gives `files_processed = 1`, `total_original_size = 2`, and a
non-decreasing `z85` usage count. -/
theorem c9_witness :
    (runCalls bkNone capsNone initStats demoCalls).filesProcessed = demoCalls.length ∧
    (runCalls bkNone capsNone initStats demoCalls).totalOriginalSize =
      (demoCalls.map (fun c => c.data.length)).sum ∧
    usageCount (runCalls bkNone capsNone initStats (demoCalls.take 0)).methodUsage "z85" ≤
      usageCount (runCalls bkNone capsNone initStats (demoCalls.take 1)).methodUsage "z85" := by
  have h := c9_stats_consistency bkNone capsNone demoCalls
    (by
      intro c hc
      rw [demoCalls, List.mem_singleton] at hc
      subst hc
      decide)
    (by
      intro c hc
      rw [demoCalls, List.mem_singleton] at hc
      subst hc
      exact le_refl 0)
  exact ⟨h.1, h.2.1, (h.2.2 0 1 (by omega)).2.2.2.2 "z85"⟩
